import Mathlib

/-!
Verification of the dexarm-blade-loader motion-safety core.

Shallow embedding of `src/backend/core/types.py`, `src/backend/core/planner.py`,
`src/backend/core/executor.py`, `src/backend/controller.py` and
`src/backend/workflows/pick_place.py`.

Modelling conventions:
* Python floats are modelled as rationals (`ℚ`); none of the verified claims
  depends on binary rounding.
* The reach check `sqrt(x^2+y^2) > max_reach` of `WorkspaceLimits.validate`
  is modelled by the real-equivalent square comparison
  `¬(0 ≤ max_reach ∧ x^2+y^2 ≤ max_reach^2)` (equivalent since sqrt is
  monotone and nonnegative).
* A Python exception escaping a method is an `Except.error`; a method that
  mutates `self` is a function from the state to the new state.  When a
  method raises, the returned state is the state the object holds at the
  moment of the raise (Python mutations performed before the raise persist).
* The textual payload of error messages and the wall-clock timestamp of
  `CommandResult` are irrelevant to every claim; messages are kept as plain
  strings without Python's numeric formatting, and timestamps are omitted.
-/

deriving instance DecidableEq for Except

namespace BladeLoader

/- Batteries marks the `Rat` arithmetic operations irreducible, which stops
`decide` from evaluating concrete planner runs; re-allow unfolding locally. -/
attribute [local semireducible] Rat.add Rat.mul Rat.sub Rat.inv Rat.ofScientific

/-- `Position` from `core/types.py`: immutable 3D point in mm. -/
structure Position where
  x : ℚ
  y : ℚ
  z : ℚ
deriving DecidableEq, Repr

/-- `Position.with_z`. -/
def Position.with_z (p : Position) (new_z : ℚ) : Position :=
  ⟨p.x, p.y, new_z⟩

/-- `Position.with_xy`. -/
def Position.with_xy (p : Position) (new_x new_y : ℚ) : Position :=
  ⟨new_x, new_y, p.z⟩

/-- `WorkspaceLimits` from `core/types.py`. -/
structure WorkspaceLimits where
  x_min : ℚ
  x_max : ℚ
  y_min : ℚ
  y_max : ℚ
  z_min : ℚ
  z_max : ℚ
  max_reach : ℚ
deriving DecidableEq, Repr

/-- The condition `reach(pos) ≤ max_reach` of `WorkspaceLimits.validate`,
with `reach = sqrt(x^2+y^2)` rendered by the equivalent square comparison. -/
def WorkspaceLimits.reachOk (w : WorkspaceLimits) (pos : Position) : Bool :=
  decide (0 ≤ w.max_reach ∧ pos.x ^ 2 + pos.y ^ 2 ≤ w.max_reach ^ 2)

/-- `WorkspaceLimits.validate`: `(valid, message)`.  The checks run in the
source order: X range, Y range, Z range, reach. -/
def WorkspaceLimits.validate (w : WorkspaceLimits) (pos : Position) :
    Bool × String :=
  if ¬ (w.x_min ≤ pos.x ∧ pos.x ≤ w.x_max) then
    (false, "X out of range")
  else if ¬ (w.y_min ≤ pos.y ∧ pos.y ≤ w.y_max) then
    (false, "Y out of range")
  else if ¬ (w.z_min ≤ pos.z ∧ pos.z ≤ w.z_max) then
    (false, "Z out of range")
  else if ¬ w.reachOk pos then
    (false, "Reach exceeds max")
  else
    (true, "OK")

/-- `DEFAULT_WORKSPACE` from `core/types.py`. -/
def DEFAULT_WORKSPACE : WorkspaceLimits :=
  { x_min := -300, x_max := 300
    y_min := 100, y_max := 450
    z_min := -100, z_max := 200
    max_reach := 400 }

/-- `SuctionCommand.action` values. -/
inductive SuctionAction where
  | on | blow | release | off
deriving DecidableEq, Repr

/-- `SetModuleCommand.module` values. -/
inductive ModuleKind where
  | pen | laser | pneumatic | threeDPrint
deriving DecidableEq, Repr

/-- The closed set of command dataclasses of `core/types.py`
(`MoveCommand`, `WaitCommand`, `HomeCommand`, `SuctionCommand`,
`DelayCommand`, `SetModuleCommand`, `GetPositionCommand`, `MotorsCommand`,
`EmergencyStopCommand`). -/
inductive Cmd where
  | move (x y z : Option ℚ) (feedrate : ℤ)
  | wait
  | home
  | suction (action : SuctionAction)
  | delay (milliseconds : ℤ)
  | setModule (module : ModuleKind)
  | getPosition
  | motors (enable : Bool)
  | emergencyStop
deriving DecidableEq, Repr

/-- Render a rational with two decimal digits, mirroring Python's `f"{v:.2f}"`
(the claims never inspect the rounded digits, so round-half-up stands in for
float round-half-even). -/
def fmt2 (q : ℚ) : String :=
  let n : ℤ := round (q * 100)
  let sign := if n < 0 then "-" else ""
  let m := n.natAbs
  let r := m % 100
  sign ++ toString (m / 100) ++ "." ++ (if r < 10 then "0" else "") ++ toString r

/-- `to_gcode` of each command dataclass. -/
def Cmd.to_gcode : Cmd → String
  | .move x y z feedrate =>
      "G1 F" ++ toString feedrate
        ++ (match x with | some v => " X" ++ fmt2 v | none => "")
        ++ (match y with | some v => " Y" ++ fmt2 v | none => "")
        ++ (match z with | some v => " Z" ++ fmt2 v | none => "")
  | .wait => "M400"
  | .home => "M1112"
  | .suction .on => "M1000"
  | .suction .blow => "M1001"
  | .suction .release => "M1002"
  | .suction .off => "M1003"
  | .delay ms => "G4 P" ++ toString ms
  | .setModule .pen => "M888 P0"
  | .setModule .laser => "M888 P1"
  | .setModule .pneumatic => "M888 P2"
  | .setModule .threeDPrint => "M888 P3"
  | .getPosition => "M114"
  | .motors true => "M17"
  | .motors false => "M84"
  | .emergencyStop => "M410"

/-- `MoveCommand.changes_xy` (false on every non-move command). -/
def Cmd.changes_xy : Cmd → Bool
  | .move x y _ _ => x.isSome || y.isSome
  | _ => false

/-- `MoveCommand.changes_z`. -/
def Cmd.changes_z : Cmd → Bool
  | .move _ _ z _ => z.isSome
  | _ => false

/-- `MoveCommand.is_z_only`. -/
def Cmd.is_z_only : Cmd → Bool
  | .move x y z _ => z.isSome && x.isNone && y.isNone
  | _ => false

/-- The Z component of a move command, if any. -/
def Cmd.zVal : Cmd → Option ℚ
  | .move _ _ z _ => z
  | _ => none

/-- `MotionPlanner`'s configuration (`safe_z`, `feedrate`, `workspace`). -/
structure MotionPlanner where
  safe_z : ℚ
  feedrate : ℤ
  workspace : WorkspaceLimits
deriving DecidableEq, Repr

/-- `MotionPlanner._validate_position`: raises `ValueError` when the
workspace rejects the position. -/
def MotionPlanner.validatePosition (pl : MotionPlanner) (pos : Position) :
    Except String Unit :=
  let vm := pl.workspace.validate pos
  if vm.1 then Except.ok () else Except.error ("Position invalid: " ++ vm.2)

/-- `MotionPlanner.plan_direct_move`: validate, then one XYZ move plus a wait. -/
def MotionPlanner.plan_direct_move (pl : MotionPlanner) (target : Position) :
    Except String (List Cmd) := do
  _ ← pl.validatePosition target
  pure [Cmd.move (some target.x) (some target.y) (some target.z) pl.feedrate,
        Cmd.wait]

/-- `MotionPlanner.plan_safe_move`: validate, then Z-lift (when below safe-Z),
XY move (when XY differs), Z-lower (when the post-lift Z differs from the
target Z), each followed by a wait; a lone wait when nothing is needed. -/
def MotionPlanner.plan_safe_move (pl : MotionPlanner)
    (current target : Position) : Except String (List Cmd) := do
  _ ← pl.validatePosition target
  let lift : List Cmd :=
    if current.z < pl.safe_z then
      [Cmd.move none none (some pl.safe_z) pl.feedrate, Cmd.wait]
    else []
  let xyPart : List Cmd :=
    if current.x ≠ target.x ∨ current.y ≠ target.y then
      [Cmd.move (some target.x) (some target.y) none pl.feedrate, Cmd.wait]
    else []
  let move_z := max current.z pl.safe_z
  let lower : List Cmd :=
    if target.z ≠ move_z then
      [Cmd.move none none (some target.z) pl.feedrate, Cmd.wait]
    else []
  let cmds := lift ++ xyPart ++ lower
  pure (if cmds = [] then [Cmd.wait] else cmds)

/-- `MotionPlanner.plan_pick_sequence`. -/
def MotionPlanner.plan_pick_sequence (pl : MotionPlanner)
    (current pick_pos : Position) (vacuum_delay_ms : ℤ := 200) :
    Except String (List Cmd) := do
  _ ← pl.validatePosition pick_pos
  let above_pick := pick_pos.with_z pl.safe_z
  let approach ← pl.plan_safe_move current above_pick
  pure (approach ++
    [Cmd.suction .on,
     Cmd.move none none (some pick_pos.z) pl.feedrate, Cmd.wait,
     Cmd.delay vacuum_delay_ms,
     Cmd.move none none (some pl.safe_z) pl.feedrate, Cmd.wait])

/-- `MotionPlanner.plan_place_sequence`. -/
def MotionPlanner.plan_place_sequence (pl : MotionPlanner)
    (current place_pos : Position) (release_delay_ms : ℤ := 100) :
    Except String (List Cmd) := do
  _ ← pl.validatePosition place_pos
  let above_place := place_pos.with_z pl.safe_z
  let approach ← pl.plan_safe_move current above_place
  pure (approach ++
    [Cmd.move none none (some place_pos.z) pl.feedrate, Cmd.wait,
     Cmd.suction .blow,
     Cmd.delay release_delay_ms,
     Cmd.suction .off,
     Cmd.move none none (some pl.safe_z) pl.feedrate, Cmd.wait])

/-- Index of the first command satisfying `p` (the scan of
`verify_safe_move_invariant` over the command list). -/
def firstIdxBy (p : Cmd → Bool) : List Cmd → Option Nat
  | [] => none
  | c :: cs => if p c then some 0 else (firstIdxBy p cs).map (· + 1)

/-!
## Command executor — `core/executor.py`
-/

/-- The outcome of one `transport.send` call: a returned response string, or
an exception carrying its message. -/
inductive SendOutcome where
  | resp (s : String)
  | exn (msg : String)
deriving DecidableEq, Repr

/-- A (possibly stateful) transport: `send` maps the transport's private
state and a wire string to an outcome and the next private state. -/
def Transport (τ : Type) : Type := τ → String → SendOutcome × τ

/-- The success test `"ok" in response.lower()` of
`CommandQueue._execute_one`. -/
def containsOk (response : String) : Bool :=
  decide (['o', 'k'] <:+: response.toLower.data)

/-- `CommandResult` (the wall-clock timestamp is omitted: no claim mentions
it). -/
structure CommandResult where
  command : Cmd
  gcode : String
  response : String
  success : Bool
deriving DecidableEq, Repr

/-- The mutable state of a `CommandQueue`: FIFO of pending commands plus
append-only history. -/
structure QueueState where
  pending : List Cmd
  history : List CommandResult
deriving DecidableEq, Repr

/-- `CommandQueue.__init__`. -/
def QueueState.empty : QueueState := ⟨[], []⟩

/-- `CommandQueue.enqueue`. -/
def QueueState.enqueue (q : QueueState) (c : Cmd) : QueueState :=
  ⟨q.pending ++ [c], q.history⟩

/-- `CommandQueue.enqueue_many`. -/
def QueueState.enqueue_many (q : QueueState) (cs : List Cmd) : QueueState :=
  ⟨q.pending ++ cs, q.history⟩

/-- `CommandQueue._execute_one`: send the wire text; a normal return is
classified by `containsOk`; an exception is caught and becomes a failed
result whose response is `"ERROR: " ++ message`. -/
def executeOne {τ : Type} (c : Cmd) (t : Transport τ) (st : τ) :
    CommandResult × τ :=
  let gcode := c.to_gcode
  match t st gcode with
  | (SendOutcome.resp r, st') =>
      (⟨c, gcode, r, containsOk r⟩, st')
  | (SendOutcome.exn m, st') =>
      (⟨c, gcode, "ERROR: " ++ m, false⟩, st')

/-- The loop body of `CommandQueue.execute_all`: run each pending command in
order, threading the transport state, collecting one result per command. -/
def executeAllAux {τ : Type} (t : Transport τ) :
    List Cmd → τ → List CommandResult × τ
  | [], st => ([], st)
  | c :: cs, st =>
      let one := executeOne c t st
      let rest := executeAllAux t cs one.2
      (one.1 :: rest.1, rest.2)

/-- `CommandQueue.execute_all`: drain the pending FIFO in order, append each
result to history, clear the pending queue, return the batch results. -/
def executeAll {τ : Type} (q : QueueState) (t : Transport τ) (st : τ) :
    List CommandResult × QueueState × τ :=
  let outcome := executeAllAux t q.pending st
  (outcome.1, ⟨[], q.history ++ outcome.1⟩, outcome.2)

/-- `CommandQueue.execute_immediate`: run one command bypassing the queue,
still recorded in history. -/
def executeImmediate {τ : Type} (q : QueueState) (c : Cmd) (t : Transport τ)
    (st : τ) : CommandResult × QueueState × τ :=
  let one := executeOne c t st
  (one.1, ⟨q.pending, q.history ++ [one.1]⟩, one.2)

/-!
## Sensor-response parsing — `BladeLoaderController.read_position_from_sensor`

The controller extracts each axis with `re.search(r'X[:\s]*([-\d.]+)', resp)`
(and likewise for `Y`, `Z`; no `re.IGNORECASE` flag) and converts each
captured group with Python's `float()`, which raises `ValueError` on a
malformed numeral.  The character classes `[:\s]` and `[-\d.]` are disjoint,
so the regex engine's backtracking never changes the greedy scan below.
-/

/-- Python's `\s` class. -/
def isPySpace (c : Char) : Bool :=
  c = ' ' || c = '\t' || c = '\n' || c = '\r' || c = '\x0b' || c = '\x0c'

/-- The `[:\s]` class. -/
def isSpaceColon (c : Char) : Bool :=
  c = ':' || isPySpace c

/-- The `[-\d.]` class. -/
def isNumChar (c : Char) : Bool :=
  c = '-' || c = '.' || c.isDigit

/-- `re.search` for the pattern `<label>[:\s]*([-\d.]+)`: leftmost position
where the literal label is followed by optional `[:\s]` filler and at least
one `[-\d.]` character; returns the captured (maximal) group. -/
def searchAxis (label : Char) : List Char → Option (List Char)
  | [] => none
  | c :: rest =>
      if c = label then
        let grp := (rest.dropWhile isSpaceColon).takeWhile isNumChar
        if grp.isEmpty then searchAxis label rest else some grp
      else searchAxis label rest

/-- Numeric value of a digit string. -/
def digitsVal (cs : List Char) : ℕ :=
  cs.foldl (fun a c => a * 10 + (c.toNat - '0'.toNat)) 0

/-- Python `float()` on a string drawn from the `[-\d.]` alphabet: optional
leading sign, at most one dot, at least one digit; `none` models the
`ValueError` raise. -/
def pyFloat (cs : List Char) : Option ℚ :=
  let neg := cs.head? = some '-'
  let body := if neg then cs.tail else cs
  if body.isEmpty then none
  else if body.any (fun c => ¬ (c.isDigit ∨ c = '.')) then none
  else
    match body.splitOn '.' with
    | [intp] =>
        if intp.isEmpty then none
        else some ((if neg then -1 else 1) * (digitsVal intp : ℚ))
    | [intp, frac] =>
        if intp.isEmpty ∧ frac.isEmpty then none
        else some ((if neg then -1 else 1) *
          ((digitsVal intp : ℚ) + (digitsVal frac : ℚ) / 10 ^ frac.length))
    | _ => none

/-- The parsing core of `read_position_from_sensor` applied to one response
string: `Except.error ()` is a `float()` `ValueError` escaping the method;
`Except.ok none` is the no-match fallback to the stale position;
`Except.ok (some p)` is a successful parse. -/
def handleSensorResponse (response : String) : Except Unit (Option Position) :=
  match searchAxis 'X' response.data, searchAxis 'Y' response.data,
        searchAxis 'Z' response.data with
  | some gx, some gy, some gz =>
      match pyFloat gx, pyFloat gy, pyFloat gz with
      | some x, some y, some z => Except.ok (some ⟨x, y, z⟩)
      | _, _, _ => Except.error ()
  | _, _, _ => Except.ok none

/-!
## Controller facade — `backend/controller.py`
-/

/-- The error kinds a controller method can raise.  `notHomed` and
`notCarrying` are the two `RuntimeError` raise sites, `validation` is the
planner's `ValueError`, `transport` an exception from a direct
`transport.send`, `valueError` a `float()` failure in sensor parsing. -/
inductive CtrlErr where
  | notHomed
  | notCarrying
  | validation (msg : String)
  | transport (msg : String)
  | valueError
deriving DecidableEq, Repr

/-- The mutable fields of `BladeLoaderController` (the planner is included
because `set_safe_z` mutates it). -/
structure CtrlState where
  planner : MotionPlanner
  position : Position
  is_homed : Bool
  carrying_blade : Bool
  suction_active : Bool
  motors_enabled : Bool
  queue : QueueState
deriving DecidableEq, Repr

/-- `BladeLoaderController.__init__`. -/
def CtrlState.init (safe_z : ℚ := 50) (feedrate : ℤ := 3000) : CtrlState :=
  { planner := ⟨safe_z, feedrate, DEFAULT_WORKSPACE⟩
    position := ⟨0, 300, 0⟩
    is_homed := false
    carrying_blade := false
    suction_active := false
    motors_enabled := true
    queue := QueueState.empty }

/-- `read_position_from_sensor`: sends `M895` directly on the transport (a
transport exception propagates), then parses; on successful parse the
tracked position is overwritten, on no-match the stale position is returned
unchanged. -/
def CtrlState.read_position_from_sensor {τ : Type} (s : CtrlState)
    (t : Transport τ) (st : τ) : Except CtrlErr Position × CtrlState × τ :=
  match t st "M895" with
  | (SendOutcome.exn m, st') => (Except.error (CtrlErr.transport m), s, st')
  | (SendOutcome.resp response, st') =>
      match handleSensorResponse response with
      | Except.error () => (Except.error CtrlErr.valueError, s, st')
      | Except.ok (some p) => (Except.ok p, { s with position := p }, st')
      | Except.ok none => (Except.ok s.position, s, st')

/-- `sync_position` (logs, then returns the sensor read). -/
def CtrlState.sync_position {τ : Type} (s : CtrlState) (t : Transport τ)
    (st : τ) : Except CtrlErr Position × CtrlState × τ :=
  s.read_position_from_sensor t st

/-- `motors_on`: enqueue `M17`, execute, set `motors_enabled`, then sync the
tracked position from the sensor. -/
def CtrlState.motors_on {τ : Type} (s : CtrlState) (t : Transport τ)
    (st : τ) : Except CtrlErr Unit × CtrlState × τ :=
  let e := executeAll (s.queue.enqueue (Cmd.motors true)) t st
  let s1 := { s with queue := e.2.1, motors_enabled := true }
  let sync := s1.sync_position t e.2.2
  (sync.1.map fun _ => (), sync.2.1, sync.2.2)

/-- `motors_off`: enqueue `M84`, execute, clear `motors_enabled` (the
carrying-blade warning is a log line only). -/
def CtrlState.motors_off {τ : Type} (s : CtrlState) (t : Transport τ)
    (st : τ) : CtrlState × τ :=
  let e := executeAll (s.queue.enqueue (Cmd.motors false)) t st
  ({ s with queue := e.2.1, motors_enabled := false }, e.2.2)

/-- `_require_homed`: raise when not homed; when motors are disabled,
auto-recover via `motors_on` (which syncs position and may itself raise). -/
def CtrlState.requireHomed {τ : Type} (s : CtrlState) (t : Transport τ)
    (st : τ) : Except CtrlErr Unit × CtrlState × τ :=
  if ¬ s.is_homed then (Except.error CtrlErr.notHomed, s, st)
  else if ¬ s.motors_enabled then s.motors_on t st
  else (Except.ok (), s, st)

/-- `home`: when already homed below safe-Z, first lift; then set the
pneumatic module, home, wait; finally reset position to the rest pose,
`homed := true`, `carrying_blade := false`.  Never raises. -/
def CtrlState.home {τ : Type} (s : CtrlState) (t : Transport τ) (st : τ) :
    CtrlState × τ :=
  let lifted :=
    if s.is_homed ∧ s.position.z < s.planner.safe_z then
      let q := ((s.queue.enqueue
        (Cmd.move none none (some s.planner.safe_z) s.planner.feedrate)).enqueue
        Cmd.wait)
      let e := executeAll q t st
      ({ s with queue := e.2.1 }, e.2.2)
    else (s, st)
  let s1 := lifted.1
  let q := (((s1.queue.enqueue (Cmd.setModule ModuleKind.pneumatic)).enqueue
    Cmd.home).enqueue Cmd.wait)
  let e2 := executeAll q t lifted.2
  ({ s1 with queue := e2.2.1, position := ⟨0, 300, 0⟩, is_homed := true,
             carrying_blade := false }, e2.2.2)

/-- `move_to`: require homed, plan a direct move, execute, set position. -/
def CtrlState.move_to {τ : Type} (s : CtrlState) (t : Transport τ) (st : τ)
    (target : Position) : Except CtrlErr Unit × CtrlState × τ :=
  let rq := s.requireHomed t st
  let s1 := rq.2.1
  let st1 := rq.2.2
  match rq.1 with
  | Except.error e => (Except.error e, s1, st1)
  | Except.ok () =>
      match s1.planner.plan_direct_move target with
      | Except.error m => (Except.error (CtrlErr.validation m), s1, st1)
      | Except.ok cmds =>
          let e := executeAll (s1.queue.enqueue_many cmds) t st1
          (Except.ok (), { s1 with queue := e.2.1, position := target }, e.2.2)

/-- `safe_move_to`. -/
def CtrlState.safe_move_to {τ : Type} (s : CtrlState) (t : Transport τ)
    (st : τ) (target : Position) : Except CtrlErr Unit × CtrlState × τ :=
  let rq := s.requireHomed t st
  let s1 := rq.2.1
  let st1 := rq.2.2
  match rq.1 with
  | Except.error e => (Except.error e, s1, st1)
  | Except.ok () =>
      match s1.planner.plan_safe_move s1.position target with
      | Except.error m => (Except.error (CtrlErr.validation m), s1, st1)
      | Except.ok cmds =>
          let e := executeAll (s1.queue.enqueue_many cmds) t st1
          (Except.ok (), { s1 with queue := e.2.1, position := target }, e.2.2)

/-- `pick_blade`: require homed, plan the pick sequence, execute, then set
position above the pick at safe-Z, `carrying_blade := true`,
`suction_active := true`. -/
def CtrlState.pick_blade {τ : Type} (s : CtrlState) (t : Transport τ)
    (st : τ) (pos : Position) : Except CtrlErr Unit × CtrlState × τ :=
  let rq := s.requireHomed t st
  let s1 := rq.2.1
  let st1 := rq.2.2
  match rq.1 with
  | Except.error e => (Except.error e, s1, st1)
  | Except.ok () =>
      match s1.planner.plan_pick_sequence s1.position pos 200 with
      | Except.error m => (Except.error (CtrlErr.validation m), s1, st1)
      | Except.ok cmds =>
          let e := executeAll (s1.queue.enqueue_many cmds) t st1
          (Except.ok (),
           { s1 with queue := e.2.1,
                     position := pos.with_z s1.planner.safe_z,
                     carrying_blade := true, suction_active := true }, e.2.2)

/-- `place_blade`: require homed, raise `notCarrying` when no blade is held,
otherwise plan the place sequence, execute, then set position above the
place at safe-Z, `carrying_blade := false`, `suction_active := false`. -/
def CtrlState.place_blade {τ : Type} (s : CtrlState) (t : Transport τ)
    (st : τ) (pos : Position) : Except CtrlErr Unit × CtrlState × τ :=
  let rq := s.requireHomed t st
  let s1 := rq.2.1
  let st1 := rq.2.2
  match rq.1 with
  | Except.error e => (Except.error e, s1, st1)
  | Except.ok () =>
      if ¬ s1.carrying_blade then (Except.error CtrlErr.notCarrying, s1, st1)
      else
        match s1.planner.plan_place_sequence s1.position pos 100 with
        | Except.error m => (Except.error (CtrlErr.validation m), s1, st1)
        | Except.ok cmds =>
            let e := executeAll (s1.queue.enqueue_many cmds) t st1
            (Except.ok (),
             { s1 with queue := e.2.1,
                       position := pos.with_z s1.planner.safe_z,
                       carrying_blade := false, suction_active := false },
             e.2.2)

/-- `suction_on`. -/
def CtrlState.suction_on {τ : Type} (s : CtrlState) (t : Transport τ)
    (st : τ) : CtrlState × τ :=
  let e := executeAll (s.queue.enqueue (Cmd.suction SuctionAction.on)) t st
  ({ s with queue := e.2.1, suction_active := true }, e.2.2)

/-- `suction_off` (sends release then off). -/
def CtrlState.suction_off {τ : Type} (s : CtrlState) (t : Transport τ)
    (st : τ) : CtrlState × τ :=
  let q := ((s.queue.enqueue (Cmd.suction SuctionAction.release)).enqueue
    (Cmd.suction SuctionAction.off))
  let e := executeAll q t st
  ({ s with queue := e.2.1, suction_active := false }, e.2.2)

/-- `set_safe_z`. -/
def CtrlState.set_safe_z (s : CtrlState) (z : ℚ) : CtrlState :=
  { s with planner := { s.planner with safe_z := z } }

/-- The public controller operations, as one closed syntax for claims that
quantify over "every sequence of controller operations". -/
inductive Op where
  | home
  | move_to (target : Position)
  | safe_move_to (target : Position)
  | pick_blade (pos : Position)
  | place_blade (pos : Position)
  | suction_on
  | suction_off
  | motors_on
  | motors_off
  | sync_position
  | read_position_from_sensor
  | set_safe_z (z : ℚ)
deriving DecidableEq, Repr

/-- Run one controller operation: the returned `Except` is `ok` when the
Python method returns normally and `error` when it raises; the returned
state is the controller's state afterwards in either case. -/
def applyOp {τ : Type} (op : Op) (s : CtrlState) (t : Transport τ) (st : τ) :
    Except CtrlErr Unit × CtrlState × τ :=
  match op with
  | Op.home => (Except.ok (), s.home t st)
  | Op.move_to p => s.move_to t st p
  | Op.safe_move_to p => s.safe_move_to t st p
  | Op.pick_blade p => s.pick_blade t st p
  | Op.place_blade p => s.place_blade t st p
  | Op.suction_on => (Except.ok (), s.suction_on t st)
  | Op.suction_off => (Except.ok (), s.suction_off t st)
  | Op.motors_on => s.motors_on t st
  | Op.motors_off => (Except.ok (), s.motors_off t st)
  | Op.sync_position =>
      let r := s.sync_position t st
      (r.1.map fun _ => (), r.2.1, r.2.2)
  | Op.read_position_from_sensor =>
      let r := s.read_position_from_sensor t st
      (r.1.map fun _ => (), r.2.1, r.2.2)
  | Op.set_safe_z z => (Except.ok (), s.set_safe_z z, st)

/-!
## Workflow state machine — `workflows/pick_place.py`
-/

/-- `WorkflowState` enumeration. -/
inductive WState where
  | idle
  | movingToPick
  | loweringToPick
  | activatingSuction
  | liftingFromPick
  | movingToPlace
  | loweringToPlace
  | releasing
  | liftingFromPlace
  | complete
  | error
deriving DecidableEq, Repr

/-- The two `ValueError` raise sites of `PickPlaceWorkflow.start`, in source
order: the not-idle check runs first. -/
inductive StartErr where
  | notIdle
  | notConfigured
deriving DecidableEq, Repr

/-- The mutable fields of `PickPlaceWorkflow`.  The stored transport is
passed explicitly to `step`/`run` (`none` models a workflow constructed
without one); `hasOnComplete` records whether an `on_complete` callback is
attached. -/
structure Workflow where
  planner : MotionPlanner
  state : WState
  pick_position : Option Position
  place_position : Option Position
  current_position : Position
  queue : Option QueueState
  hasOnComplete : Bool
deriving DecidableEq, Repr

/-- `PickPlaceWorkflow.__init__` followed by `configure(pick, place)`. -/
def Workflow.configured (pick place : Position)
    (queue : Option QueueState := some QueueState.empty)
    (hasOnComplete : Bool := true) (safe_z : ℚ := 50)
    (feedrate : ℤ := 3000) : Workflow :=
  { planner := ⟨safe_z, feedrate, DEFAULT_WORKSPACE⟩
    state := WState.idle
    pick_position := some pick
    place_position := some place
    current_position := ⟨0, 300, 0⟩
    queue := queue
    hasOnComplete := hasOnComplete }

/-- `PickPlaceWorkflow.start`: raise when not idle (first), raise when a
position is missing (second), otherwise transition to `movingToPick`. -/
def Workflow.start (w : Workflow) : Except StartErr Unit × Workflow :=
  if w.state ≠ WState.idle then (Except.error StartErr.notIdle, w)
  else if w.pick_position = none ∨ w.place_position = none then
    (Except.error StartErr.notConfigured, w)
  else (Except.ok (), { w with state := WState.movingToPick })

/-- `PickPlaceWorkflow._advance_state`'s transition table (identity on
states missing from the table). -/
def Workflow.advance : WState → WState
  | WState.movingToPick => WState.loweringToPick
  | WState.loweringToPick => WState.activatingSuction
  | WState.activatingSuction => WState.liftingFromPick
  | WState.liftingFromPick => WState.movingToPlace
  | WState.movingToPlace => WState.loweringToPlace
  | WState.loweringToPlace => WState.releasing
  | WState.releasing => WState.liftingFromPlace
  | WState.liftingFromPlace => WState.complete
  | s => s

/-- `PickPlaceWorkflow._execute_current_state`: a no-op without a transport
and queue; otherwise runs the current state's action.  `Except.error` is an
exception escaping the action — in the source the only raisers (a failed
`assert` on a missing position, and the planner's validation `ValueError`)
fire before any queue or transport activity. -/
def Workflow.execCurrentState {τ : Type} (w : Workflow)
    (t : Option (Transport τ)) (st : τ) : Except String (Workflow × τ) :=
  match w.queue, t with
  | some q, some tr =>
      let runBatch := fun (cmds : List Cmd) (upd : Workflow → Workflow) =>
        let e := executeAll (q.enqueue_many cmds) tr st
        Except.ok (upd { w with queue := some e.2.1 }, e.2.2)
      match w.state with
      | WState.movingToPick =>
          match w.pick_position with
          | none => Except.error "assert"
          | some pick =>
              let above := pick.with_z w.planner.safe_z
              match w.planner.plan_safe_move w.current_position above with
              | Except.error m => Except.error m
              | Except.ok cmds =>
                  runBatch cmds fun w' => { w' with current_position := above }
      | WState.loweringToPick =>
          match w.pick_position with
          | none => Except.error "assert"
          | some pick =>
              runBatch [Cmd.move none none (some pick.z) w.planner.feedrate,
                        Cmd.wait]
                fun w' => { w' with current_position := pick }
      | WState.activatingSuction =>
          runBatch [Cmd.suction SuctionAction.on, Cmd.delay 200] id
      | WState.liftingFromPick =>
          runBatch [Cmd.move none none (some w.planner.safe_z)
                      w.planner.feedrate, Cmd.wait]
            fun w' => { w' with
              current_position := w.current_position.with_z w.planner.safe_z }
      | WState.movingToPlace =>
          match w.place_position with
          | none => Except.error "assert"
          | some place =>
              let above := place.with_z w.planner.safe_z
              match w.planner.plan_safe_move w.current_position above with
              | Except.error m => Except.error m
              | Except.ok cmds =>
                  runBatch cmds fun w' => { w' with current_position := above }
      | WState.loweringToPlace =>
          match w.place_position with
          | none => Except.error "assert"
          | some place =>
              runBatch [Cmd.move none none (some place.z) w.planner.feedrate,
                        Cmd.wait]
                fun w' => { w' with current_position := place }
      | WState.releasing =>
          runBatch [Cmd.suction SuctionAction.release, Cmd.delay 100,
                    Cmd.suction SuctionAction.off] id
      | WState.liftingFromPlace =>
          runBatch [Cmd.move none none (some w.planner.safe_z)
                      w.planner.feedrate, Cmd.wait]
            fun w' => { w' with
              current_position := w.current_position.with_z w.planner.safe_z }
      | _ => Except.ok (w, st)
  | _, _ => Except.ok (w, st)

/-- `PickPlaceWorkflow.step`: return unchanged in Idle/Complete/Error;
otherwise run the current state's action and advance, or transition to
Error when the action raised (the raisers fire before any mutation, so the
rest of the workflow is unchanged). -/
def Workflow.step {τ : Type} (w : Workflow) (t : Option (Transport τ))
    (st : τ) : Workflow × τ :=
  if w.state = WState.idle ∨ w.state = WState.complete ∨
     w.state = WState.error then (w, st)
  else
    match w.execCurrentState t st with
    | Except.ok p => ({ p.1 with state := Workflow.advance p.1.state }, p.2)
    | Except.error _ => ({ w with state := WState.error }, st)

/-- The `while` loop of `PickPlaceWorkflow.run`, with fuel (every reachable
run terminates within 9 iterations: each step either walks the linear
transition chain or lands in the terminal Error state). -/
def Workflow.runAux {τ : Type} (t : Option (Transport τ)) :
    Nat → Workflow → τ → List WState → Workflow × τ × List WState
  | 0, w, st, acc => (w, st, acc)
  | fuel + 1, w, st, acc =>
      if w.state = WState.complete ∨ w.state = WState.error then (w, st, acc)
      else
        let next := w.step t st
        Workflow.runAux t fuel next.1 next.2 (acc ++ [next.1.state])

/-- `PickPlaceWorkflow.run`: `start()`, then `step()` until Complete or
Error; the returned list is the sequence of states entered (one entry per
transition), and the final `Bool` records whether the `on_complete`
callback fired (only in Complete, and only when one is attached).  A raise
from `start` propagates. -/
def Workflow.run {τ : Type} (w : Workflow) (t : Option (Transport τ))
    (st : τ) : Except StartErr (Workflow × τ × List WState × Bool) :=
  match w.start with
  | (Except.error e, _) => Except.error e
  | (Except.ok (), w1) =>
      let out := Workflow.runAux t 16 w1 st [w1.state]
      Except.ok (out.1, out.2.1, out.2.2,
        decide (out.1.state = WState.complete) && out.1.hasOnComplete)

/-!
## Shared concrete instances for witnesses
-/

/-- A planner with the default configuration of `BladeLoaderController`. -/
def samplePlanner : MotionPlanner := ⟨50, 3000, DEFAULT_WORKSPACE⟩

/-- A stateless transport acknowledging every command. -/
def okTransport : Transport Unit := fun st _ => (SendOutcome.resp "ok", st)

/-- A transport rejecting the home command and acknowledging the rest. -/
def mixedTransport : Transport Unit := fun st g =>
  (SendOutcome.resp (if g = "M1112" then "error" else "ok"), st)

/-- A transport whose `send` raises on every command. -/
def raisingTransport : Transport Unit := fun st _ =>
  (SendOutcome.exn "link down", st)

/-!
## Claims
-/

/-- Claim C1: for every safe-Z, current and target with `current.z < safe_z`
and differing XY, the sequence returned by `plan_safe_move` contains a
Z-only move reaching at least `safe_z`, strictly before the first
XY-changing move. -/
theorem plan_safe_move_lift_precedes_xy (pl : MotionPlanner)
    (current target : Position) (cmds : List Cmd)
    (hz : current.z < pl.safe_z)
    (hxy : current.x ≠ target.x ∨ current.y ≠ target.y)
    (hret : pl.plan_safe_move current target = Except.ok cmds) :
    ∃ i j c, cmds.get? i = some c ∧ c.is_z_only = true ∧
      (∃ zv, c.zVal = some zv ∧ pl.safe_z ≤ zv) ∧
      firstIdxBy Cmd.changes_xy cmds = some j ∧ i < j := by
  unfold MotionPlanner.plan_safe_move MotionPlanner.validatePosition at hret
  by_cases hv : (pl.workspace.validate target).1 = true
  · simp only [hv, if_true, if_pos hz, if_pos hxy, Except.ok.injEq,
      bind, Except.bind, pure, Except.pure] at hret
    subst hret
    refine ⟨0, 2, Cmd.move none none (some pl.safe_z) pl.feedrate, ?_, ?_,
      ⟨pl.safe_z, rfl, le_refl _⟩, ?_, ?_⟩
    · simp
    · simp [Cmd.is_z_only]
    · simp [firstIdxBy, Cmd.changes_xy]
    · exact Nat.zero_lt_succ 1
  · simp only [eq_false_intro hv, if_false, bind, Except.bind] at hret
    exact absurd hret (by simp)

/-- Witness for C1 at the default planner, current `(0,300,0)`, target
`(100,200,10)`. -/
theorem plan_safe_move_lift_precedes_xy_witness :
    (0 : ℚ) < samplePlanner.safe_z ∧
    ((0 : ℚ) ≠ 100 ∨ (300 : ℚ) ≠ 200) ∧
    ∃ cmds, samplePlanner.plan_safe_move ⟨0, 300, 0⟩ ⟨100, 200, 10⟩
        = Except.ok cmds ∧
      ∃ i j c, cmds.get? i = some c ∧ c.is_z_only = true ∧
        (∃ zv, c.zVal = some zv ∧ samplePlanner.safe_z ≤ zv) ∧
        firstIdxBy Cmd.changes_xy cmds = some j ∧ i < j := by
  refine ⟨by decide, Or.inl (by decide),
    [Cmd.move none none (some 50) 3000, Cmd.wait,
     Cmd.move (some 100) (some 200) none 3000, Cmd.wait,
     Cmd.move none none (some 10) 3000, Cmd.wait], ?_, ?_⟩
  · decide
  · exact plan_safe_move_lift_precedes_xy samplePlanner ⟨0, 300, 0⟩
      ⟨100, 200, 10⟩ _ (by decide) (Or.inl (by decide)) (by decide)

/-- Claim C2: `plan_direct_move` raises exactly when the workspace rejects
the target, and on success emits exactly one XYZ move followed by one wait;
on failure no commands are produced. -/
theorem plan_direct_move_validates (pl : MotionPlanner) (target : Position) :
    ((pl.plan_direct_move target).isOk = (pl.workspace.validate target).1) ∧
    (∀ cmds, pl.plan_direct_move target = Except.ok cmds →
      cmds = [Cmd.move (some target.x) (some target.y) (some target.z)
                pl.feedrate, Cmd.wait]) := by
  constructor
  · unfold MotionPlanner.plan_direct_move MotionPlanner.validatePosition
    by_cases hv : (pl.workspace.validate target).1 = true
    · simp [hv, bind, Except.bind, pure, Except.pure, Except.isOk,
        Except.toBool]
    · simp only [eq_false_intro hv, if_false, bind, Except.bind,
        Except.isOk, Except.toBool]
      simp only [Bool.not_eq_true] at hv
      exact hv.symm
  · intro cmds h
    unfold MotionPlanner.plan_direct_move MotionPlanner.validatePosition at h
    by_cases hv : (pl.workspace.validate target).1 = true
    · simp only [hv, if_true, bind, Except.bind, pure, Except.pure,
        Except.ok.injEq] at h
      exact h.symm
    · simp only [eq_false_intro hv, if_false, bind, Except.bind] at h
      exact absurd h (by simp)

/-- Witness for C2 at the default planner and target `(100,200,10)`. -/
theorem plan_direct_move_validates_witness :
    (samplePlanner.plan_direct_move ⟨100, 200, 10⟩).isOk
        = (samplePlanner.workspace.validate ⟨100, 200, 10⟩).1 ∧
    [Cmd.move (some 100) (some 200) (some 10) 3000, Cmd.wait]
        = [Cmd.move (some (100 : ℚ)) (some 200) (some 10)
            samplePlanner.feedrate, Cmd.wait] :=
  ⟨(plan_direct_move_validates samplePlanner ⟨100, 200, 10⟩).1,
   (plan_direct_move_validates samplePlanner ⟨100, 200, 10⟩).2
     [Cmd.move (some 100) (some 200) (some 10) 3000, Cmd.wait] (by decide)⟩

/-- Claim C4: with `homed = true`, motors enabled and `carrying_blade =
false`, `place_blade` raises the not-carrying precondition error, sends
nothing on the transport, and leaves the whole controller state (including
the command history) unchanged. -/
theorem place_blade_not_carrying_no_effect {τ : Type} (s : CtrlState)
    (t : Transport τ) (st : τ) (pos : Position)
    (hh : s.is_homed = true) (hm : s.motors_enabled = true)
    (hc : s.carrying_blade = false) :
    s.place_blade t st pos = (Except.error CtrlErr.notCarrying, s, st) := by
  unfold CtrlState.place_blade CtrlState.requireHomed
  simp [hh, hm, hc]

/-- Witness for C4: a homed, motors-on, empty-handed controller. -/
theorem place_blade_not_carrying_no_effect_witness :
    ({ CtrlState.init with is_homed := true } : CtrlState).is_homed = true ∧
    ({ CtrlState.init with is_homed := true } : CtrlState).motors_enabled
        = true ∧
    ({ CtrlState.init with is_homed := true } : CtrlState).carrying_blade
        = false ∧
    ({ CtrlState.init with is_homed := true } : CtrlState).place_blade
        okTransport () ⟨100, 200, 10⟩
      = (Except.error CtrlErr.notCarrying,
         { CtrlState.init with is_homed := true }, ()) :=
  ⟨rfl, rfl, rfl,
   place_blade_not_carrying_no_effect _ okTransport () ⟨100, 200, 10⟩
     rfl rfl rfl⟩

/-- The five state fields after `home` do not depend on how `home` was
entered: position is the rest pose, `homed` is set, `carrying_blade` is
cleared, suction and motors are untouched. -/
theorem home_fields {τ : Type} (s : CtrlState) (t : Transport τ) (st : τ) :
    (s.home t st).1.position = ⟨0, 300, 0⟩ ∧
    (s.home t st).1.is_homed = true ∧
    (s.home t st).1.carrying_blade = false ∧
    (s.home t st).1.suction_active = s.suction_active ∧
    (s.home t st).1.motors_enabled = s.motors_enabled ∧
    (s.home t st).1.planner = s.planner := by
  unfold CtrlState.home
  split <;> simp

/-- Claim C9: `home()` is idempotent on the controller state fields —
calling it twice leaves position, `homed`, `carrying_blade`,
`suction_active` and `motors_enabled` identical to calling it once. -/
theorem home_idempotent_fields {τ : Type} (s : CtrlState) (t : Transport τ)
    (st : τ) :
    ((s.home t st).1.home t (s.home t st).2).1.position
        = (s.home t st).1.position ∧
    ((s.home t st).1.home t (s.home t st).2).1.is_homed
        = (s.home t st).1.is_homed ∧
    ((s.home t st).1.home t (s.home t st).2).1.carrying_blade
        = (s.home t st).1.carrying_blade ∧
    ((s.home t st).1.home t (s.home t st).2).1.suction_active
        = (s.home t st).1.suction_active ∧
    ((s.home t st).1.home t (s.home t st).2).1.motors_enabled
        = (s.home t st).1.motors_enabled := by
  obtain ⟨h1, h2, h3, h4, h5, -⟩ := home_fields s t st
  obtain ⟨g1, g2, g3, g4, g5, -⟩ :=
    home_fields (s.home t st).1 t (s.home t st).2
  exact ⟨g1.trans h1.symm, g2.trans h2.symm, g3.trans h3.symm, g4, g5⟩

/-- One result per command, in order: `executeAllAux` maps each pending
command to the result of `executeOne` at the threaded transport state. -/
theorem executeAllAux_length {τ : Type} (t : Transport τ) (cs : List Cmd)
    (st : τ) : (executeAllAux t cs st).1.length = cs.length := by
  induction cs generalizing st with
  | nil => rfl
  | cons c cs ih => simp [executeAllAux, ih]

/-- Whatever the transport outcome, a result records the command it ran and
that command's wire text. -/
theorem executeOne_command {τ : Type} (c : Cmd) (t : Transport τ) (st : τ) :
    (executeOne c t st).1.command = c ∧
    (executeOne c t st).1.gcode = c.to_gcode := by
  unfold executeOne
  rcases hs : t st c.to_gcode with ⟨o, st'⟩
  cases o <;> simp [hs]

/-- Every result of a batch records the command it ran and its wire text. -/
theorem executeAllAux_get {τ : Type} (t : Transport τ) (cs : List Cmd)
    (st : τ) : ∀ i c, cs.get? i = some c →
      ∃ r, (executeAllAux t cs st).1.get? i = some r ∧
        r.command = c ∧ r.gcode = c.to_gcode := by
  induction cs generalizing st with
  | nil => intro i c h; simp at h
  | cons c0 cs ih =>
      intro i c h
      match i with
      | 0 =>
          simp only [List.get?, Option.some.injEq] at h
          subst h
          exact ⟨(executeOne c0 t st).1, by simp [executeAllAux],
            (executeOne_command c0 t st).1, (executeOne_command c0 t st).2⟩
      | i + 1 =>
          simp only [List.get?] at h
          obtain ⟨r, hr, hc, hg⟩ := ih (executeOne c0 t st).2 i c h
          exact ⟨r, by simpa [executeAllAux] using hr, hc, hg⟩

/-- When the transport never raises, every result of a batch is classified
by the "ok"-substring test on its recorded response. -/
theorem executeAllAux_success {τ : Type} (t : Transport τ)
    (hclean : ∀ st g, ∃ s st', t st g = (SendOutcome.resp s, st'))
    (cs : List Cmd) (st : τ) :
    ∀ i r, (executeAllAux t cs st).1.get? i = some r →
      (r.success = true ↔ containsOk r.response = true) := by
  induction cs generalizing st with
  | nil => intro i r h; simp [executeAllAux] at h
  | cons c0 cs ih =>
      intro i r h
      match i with
      | 0 =>
          simp only [executeAllAux, List.get?, Option.some.injEq] at h
          obtain ⟨s, st', hs⟩ := hclean st c0.to_gcode
          subst h
          simp [executeOne, hs]
      | i + 1 =>
          simp only [executeAllAux, List.get?] at h
          exact ih (executeOne c0 t st).2 i r h

/-- Claim C3: `execute_all` drains the pending FIFO in order — one result
per pending command, recording command and wire text; each result is
classified by the case-insensitive "ok" test on the transport's response
(stated for transports that return normally; a raised exception is the
subject of C10); the batch continues past failures (the batch length never
falls short); the pending queue is cleared; the batch is appended to the
history; and exactly this batch is returned. -/
theorem execute_all_fifo_records_continues {τ : Type} (q : QueueState)
    (t : Transport τ) (st : τ) :
    (executeAll q t st).1.length = q.pending.length ∧
    (∀ i c, q.pending.get? i = some c →
      ∃ r, (executeAll q t st).1.get? i = some r ∧
        r.command = c ∧ r.gcode = c.to_gcode) ∧
    (executeAll q t st).2.1.pending = [] ∧
    (executeAll q t st).2.1.history = q.history ++ (executeAll q t st).1 ∧
    ((∀ st' g, ∃ s st2, t st' g = (SendOutcome.resp s, st2)) →
      ∀ i r, (executeAll q t st).1.get? i = some r →
        (r.success = true ↔ containsOk r.response = true)) :=
  ⟨executeAllAux_length t q.pending st,
   fun i c h => executeAllAux_get t q.pending st i c h,
   rfl, rfl,
   fun hclean i r h => executeAllAux_success t hclean q.pending st i r h⟩

/-- Witness for C3: a two-command batch over a transport that rejects the
first command and acknowledges the second. -/
theorem execute_all_fifo_records_continues_witness :
    (executeAll ⟨[Cmd.home, Cmd.wait], []⟩ mixedTransport ()).1.length
        = ([Cmd.home, Cmd.wait] : List Cmd).length ∧
    (∃ r, (executeAll ⟨[Cmd.home, Cmd.wait], []⟩ mixedTransport ()).1.get? 0
        = some r ∧ r.command = Cmd.home ∧ r.gcode = Cmd.home.to_gcode) ∧
    (executeAll ⟨[Cmd.home, Cmd.wait], []⟩ mixedTransport ()).2.1.pending
        = [] ∧
    (∀ i r,
      (executeAll ⟨[Cmd.home, Cmd.wait], []⟩ mixedTransport ()).1.get? i
          = some r → (r.success = true ↔ containsOk r.response = true)) := by
  obtain ⟨h1, h2, h3, -, h5⟩ :=
    execute_all_fifo_records_continues ⟨[Cmd.home, Cmd.wait], []⟩
      mixedTransport ()
  exact ⟨h1, h2 0 Cmd.home (by decide), h3,
    h5 fun st g => ⟨if g = "M1112" then "error" else "ok", st, by
      by_cases hg : g = "M1112" <;> simp [mixedTransport, hg]⟩⟩

/-- Claim C10: an exception raised by `transport.send` is never propagated
by the executor: `_execute_one` converts it into a failed result whose
response begins with `"ERROR:"`, `execute_immediate` still appends that
result to history, and `execute_all` still executes the full batch. -/
theorem send_exception_contained {τ : Type} (t : Transport τ) (st : τ)
    (c : Cmd) (m : String) (st' : τ)
    (hexn : t st c.to_gcode = (SendOutcome.exn m, st')) :
    executeOne c t st = (⟨c, c.to_gcode, "ERROR: " ++ m, false⟩, st') ∧
    (∀ q : QueueState,
      (executeImmediate q c t st).1.success = false ∧
      (∃ suffix, (executeImmediate q c t st).1.response
          = "ERROR:" ++ suffix) ∧
      (executeImmediate q c t st).2.1.history
          = q.history ++ [(executeImmediate q c t st).1]) ∧
    (∀ q : QueueState, q.pending.get? 0 = some c →
      (executeAll q t st).1.length = q.pending.length) := by
  have hone : executeOne c t st = (⟨c, c.to_gcode, "ERROR: " ++ m, false⟩, st') := by
    simp [executeOne, hexn]
  refine ⟨hone, ?_, ?_⟩
  · intro q
    refine ⟨?_, ⟨" " ++ m, ?_⟩, rfl⟩
    · show (executeOne c t st).1.success = false
      rw [hone]
    · show (executeOne c t st).1.response = "ERROR:" ++ (" " ++ m)
      rw [hone, ← String.append_assoc]
      rfl
  · intro q _
    exact executeAllAux_length t q.pending st

/-- Witness for C10: a transport that raises on every send. -/
theorem send_exception_contained_witness :
    executeOne Cmd.home raisingTransport ()
        = (⟨Cmd.home, Cmd.home.to_gcode, "ERROR: " ++ "link down", false⟩,
           ()) ∧
    (executeImmediate ⟨[], []⟩ Cmd.home raisingTransport ()).1.success
        = false ∧
    (executeAll ⟨[Cmd.home], []⟩ raisingTransport ()).1.length
        = ([Cmd.home] : List Cmd).length := by
  obtain ⟨h1, h2, h3⟩ :=
    send_exception_contained raisingTransport () Cmd.home "link down" () rfl
  exact ⟨h1, (h2 ⟨[], []⟩).1, h3 ⟨[Cmd.home], []⟩ (by decide)⟩

/-- Sensor reads never touch `carrying_blade`. -/
theorem read_position_carrying {τ : Type} (s : CtrlState) (t : Transport τ)
    (st : τ) :
    (s.read_position_from_sensor t st).2.1.carrying_blade
      = s.carrying_blade := by
  unfold CtrlState.read_position_from_sensor
  rcases h : t st "M895" with ⟨o, st'⟩
  cases o with
  | exn m => simp [h]
  | resp r =>
      cases hp : handleSensorResponse r with
      | error u => simp [h, hp]
      | ok op => cases op <;> simp [h, hp]

/-- `motors_on` (including its position sync) never touches
`carrying_blade`. -/
theorem motors_on_carrying {τ : Type} (s : CtrlState) (t : Transport τ)
    (st : τ) :
    (s.motors_on t st).2.1.carrying_blade = s.carrying_blade := by
  unfold CtrlState.motors_on CtrlState.sync_position
  exact read_position_carrying _ t _

/-- `_require_homed` never touches `carrying_blade` (its only side effect
is the motors-on auto-recovery). -/
theorem requireHomed_carrying {τ : Type} (s : CtrlState) (t : Transport τ)
    (st : τ) :
    (s.requireHomed t st).2.1.carrying_blade = s.carrying_blade := by
  unfold CtrlState.requireHomed
  split
  · rfl
  · split
    · exact motors_on_carrying s t st
    · rfl

/-- Counterexample for C5: `home()` on a controller that is carrying a
blade resets `carrying_blade` to false, although `home` is not
`place_blade` — so a completed place is not the only way `carrying_blade`
becomes false. -/
theorem home_clears_carrying_counterexample :
    ({ CtrlState.init with is_homed := true, carrying_blade := true }
        : CtrlState).carrying_blade = true ∧
    (({ CtrlState.init with is_homed := true, carrying_blade := true }
        : CtrlState).home okTransport ()).1.carrying_blade = false := by
  exact ⟨rfl, (home_fields _ okTransport ()).2.2.1⟩

/-- Claim C5, amended: across every controller operation, `carrying_blade`
becomes true only through a `pick_blade` that ran to completion, and
becomes false only through a `place_blade` that ran to completion **or
through `home()`** (which always clears it). -/
theorem carrying_blade_transitions {τ : Type} (op : Op) (s : CtrlState)
    (t : Transport τ) (st : τ)
    (hch : (applyOp op s t st).2.1.carrying_blade ≠ s.carrying_blade) :
    (∃ p, op = Op.pick_blade p ∧ (applyOp op s t st).1 = Except.ok () ∧
      (applyOp op s t st).2.1.carrying_blade = true) ∨
    (∃ p, op = Op.place_blade p ∧ (applyOp op s t st).1 = Except.ok () ∧
      (applyOp op s t st).2.1.carrying_blade = false) ∨
    (op = Op.home ∧ (applyOp op s t st).2.1.carrying_blade = false) := by
  cases op with
  | home =>
      exact Or.inr (Or.inr ⟨rfl, (home_fields s t st).2.2.1⟩)
  | move_to p =>
      exfalso
      apply hch
      show (s.move_to t st p).2.1.carrying_blade = s.carrying_blade
      unfold CtrlState.move_to
      cases hE : (s.requireHomed t st).1 with
      | error e => simpa [hE] using requireHomed_carrying s t st
      | ok u =>
          cases u
          cases hP : (s.requireHomed t st).2.1.planner.plan_direct_move p with
          | error m => simpa [hE, hP] using requireHomed_carrying s t st
          | ok cmds => simpa [hE, hP] using requireHomed_carrying s t st
  | safe_move_to p =>
      exfalso
      apply hch
      show (s.safe_move_to t st p).2.1.carrying_blade = s.carrying_blade
      unfold CtrlState.safe_move_to
      cases hE : (s.requireHomed t st).1 with
      | error e => simpa [hE] using requireHomed_carrying s t st
      | ok u =>
          cases u
          cases hP : (s.requireHomed t st).2.1.planner.plan_safe_move
              (s.requireHomed t st).2.1.position p with
          | error m => simpa [hE, hP] using requireHomed_carrying s t st
          | ok cmds => simpa [hE, hP] using requireHomed_carrying s t st
  | pick_blade p =>
      unfold applyOp CtrlState.pick_blade
      cases hE : (s.requireHomed t st).1 with
      | error e =>
          exfalso
          apply hch
          show (s.pick_blade t st p).2.1.carrying_blade = s.carrying_blade
          unfold CtrlState.pick_blade
          simpa [hE] using requireHomed_carrying s t st
      | ok u =>
          cases u
          cases hP : (s.requireHomed t st).2.1.planner.plan_pick_sequence
              (s.requireHomed t st).2.1.position p 200 with
          | error m =>
              exfalso
              apply hch
              show (s.pick_blade t st p).2.1.carrying_blade = s.carrying_blade
              unfold CtrlState.pick_blade
              simpa [hE, hP] using requireHomed_carrying s t st
          | ok cmds =>
              refine Or.inl ⟨p, rfl, ?_, ?_⟩ <;> simp [hE, hP]
  | place_blade p =>
      unfold applyOp CtrlState.place_blade
      cases hE : (s.requireHomed t st).1 with
      | error e =>
          exfalso
          apply hch
          show (s.place_blade t st p).2.1.carrying_blade = s.carrying_blade
          unfold CtrlState.place_blade
          simpa [hE] using requireHomed_carrying s t st
      | ok u =>
          cases u
          by_cases hc : (s.requireHomed t st).2.1.carrying_blade
          · cases hP : (s.requireHomed t st).2.1.planner.plan_place_sequence
                (s.requireHomed t st).2.1.position p 100 with
            | error m =>
                exfalso
                apply hch
                show (s.place_blade t st p).2.1.carrying_blade
                  = s.carrying_blade
                unfold CtrlState.place_blade
                simpa [hE, hc, hP] using requireHomed_carrying s t st
            | ok cmds =>
                refine Or.inr (Or.inl ⟨p, rfl, ?_, ?_⟩) <;>
                  simp [hE, hc, hP]
          · exfalso
            apply hch
            show (s.place_blade t st p).2.1.carrying_blade = s.carrying_blade
            unfold CtrlState.place_blade
            simpa [hE, hc] using requireHomed_carrying s t st
  | suction_on => exact absurd rfl hch
  | suction_off => exact absurd rfl hch
  | motors_on =>
      exfalso
      apply hch
      show (s.motors_on t st).2.1.carrying_blade = s.carrying_blade
      exact motors_on_carrying s t st
  | motors_off => exact absurd rfl hch
  | sync_position =>
      exfalso
      apply hch
      show (s.sync_position t st).2.1.carrying_blade = s.carrying_blade
      exact read_position_carrying s t st
  | read_position_from_sensor =>
      exfalso
      apply hch
      exact read_position_carrying s t st
  | set_safe_z z => exact absurd rfl hch

/-- Witness for C5 (amended): a completed `pick_blade` on a homed,
empty-handed controller flips `carrying_blade` to true. -/
theorem carrying_blade_transitions_witness :
    (applyOp (Op.pick_blade ⟨100, 200, 10⟩)
        { CtrlState.init with is_homed := true } okTransport
        ()).2.1.carrying_blade
      ≠ ({ CtrlState.init with is_homed := true } : CtrlState).carrying_blade
    ∧
    ((∃ p, Op.pick_blade ⟨100, 200, 10⟩ = Op.pick_blade p ∧
        (applyOp (Op.pick_blade ⟨100, 200, 10⟩)
          { CtrlState.init with is_homed := true } okTransport ()).1
          = Except.ok () ∧
        (applyOp (Op.pick_blade ⟨100, 200, 10⟩)
          { CtrlState.init with is_homed := true } okTransport
          ()).2.1.carrying_blade = true) ∨
     (∃ p, Op.pick_blade ⟨100, 200, 10⟩ = Op.place_blade p ∧
        (applyOp (Op.pick_blade ⟨100, 200, 10⟩)
          { CtrlState.init with is_homed := true } okTransport ()).1
          = Except.ok () ∧
        (applyOp (Op.pick_blade ⟨100, 200, 10⟩)
          { CtrlState.init with is_homed := true } okTransport
          ()).2.1.carrying_blade = false) ∨
     (Op.pick_blade ⟨100, 200, 10⟩ = Op.home ∧
        (applyOp (Op.pick_blade ⟨100, 200, 10⟩)
          { CtrlState.init with is_homed := true } okTransport
          ()).2.1.carrying_blade = false)) :=
  ⟨by decide,
   carrying_blade_transitions (Op.pick_blade ⟨100, 200, 10⟩)
     { CtrlState.init with is_homed := true } okTransport () (by decide)⟩

/-- A workflow that is both unconfigured and not Idle (it sits in
Complete). -/
def staleUnconfiguredWorkflow : Workflow :=
  { planner := samplePlanner
    state := WState.complete
    pick_position := none
    place_position := none
    current_position := ⟨0, 300, 0⟩
    queue := none
    hasOnComplete := false }

/-- Counterexample for C7: on a workflow that is simultaneously
unconfigured and not Idle, `start()` raises the not-idle error, not the
configuration error — so "fails with ConfigurationError whenever a
position is not configured" is false as stated. -/
theorem start_unconfigured_not_idle_counterexample :
    staleUnconfiguredWorkflow.pick_position = none ∧
    staleUnconfiguredWorkflow.start.1 = Except.error StartErr.notIdle ∧
    (Except.error StartErr.notIdle : Except StartErr Unit)
      ≠ Except.error StartErr.notConfigured := by
  refine ⟨rfl, rfl, by decide⟩

/-- Claim C7, amended: `start()` fails with the state error whenever the
workflow is not Idle; it fails with the configuration error when it is
Idle but a position is missing; the two error kinds are distinct; and in
both failure cases the workflow is returned unchanged. -/
theorem start_failure_modes (w : Workflow) :
    (w.state ≠ WState.idle →
      w.start = (Except.error StartErr.notIdle, w)) ∧
    (w.state = WState.idle →
      (w.pick_position = none ∨ w.place_position = none) →
      w.start = (Except.error StartErr.notConfigured, w)) ∧
    StartErr.notIdle ≠ StartErr.notConfigured := by
  refine ⟨?_, ?_, by decide⟩
  · intro h
    unfold Workflow.start
    simp [h]
  · intro h hcfg
    unfold Workflow.start
    simp [h, hcfg]

/-- Witness for C7 (amended) at the concrete stale unconfigured workflow
and at a configured-but-idle-less workflow. -/
theorem start_failure_modes_witness :
    staleUnconfiguredWorkflow.start
        = (Except.error StartErr.notIdle, staleUnconfiguredWorkflow) ∧
    ({ staleUnconfiguredWorkflow with state := WState.idle } : Workflow).start
        = (Except.error StartErr.notConfigured,
           { staleUnconfiguredWorkflow with state := WState.idle }) :=
  ⟨(start_failure_modes staleUnconfiguredWorkflow).1 (by decide),
   (start_failure_modes _).2.1 rfl (Or.inl rfl)⟩

/-!
## Helper lemmas for the sensor-response scanner
-/

/-- A transport that answers every query with the fixed response `r`. -/
def respTransport (r : String) {τ : Type} : Transport τ :=
  fun st _ => (SendOutcome.resp r, st)

theorem spaceColon_not_num (c : Char) (h : isSpaceColon c = true) :
    isNumChar c = false := by
  unfold isSpaceColon isPySpace at h
  simp only [Bool.or_eq_true, decide_eq_true_eq, or_assoc] at h
  rcases h with h | h | h | h | h | h | h <;> subst h <;> decide

theorem numChar_not_spaceColon (c : Char) (h : isNumChar c = true) :
    isSpaceColon c = false := by
  cases hsc : isSpaceColon c with
  | false => rfl
  | true => rw [spaceColon_not_num c hsc] at h; cases h

theorem spaceColon_ne_label (c : Char) (h : isSpaceColon c = true)
    (lab : Char) (hlab : isSpaceColon lab = false) : c ≠ lab := by
  intro e; subst e; rw [h] at hlab; cases hlab

theorem numChar_ne_label (c : Char) (h : isNumChar c = true)
    (lab : Char) (hlab : isNumChar lab = false) : c ≠ lab := by
  intro e; subst e; rw [h] at hlab; cases hlab

theorem dropWhile_append_all {α : Type} (p : α → Bool) (l1 l2 : List α)
    (h : ∀ a ∈ l1, p a = true) :
    (l1 ++ l2).dropWhile p = l2.dropWhile p := by
  induction l1 with
  | nil => rfl
  | cons a l ih =>
      simp only [List.cons_append, List.dropWhile, h a (by simp)]
      exact ih fun a ha => h a (by simp [ha])

theorem dropWhile_cons_false {α : Type} (p : α → Bool) (a : α) (l : List α)
    (h : p a = false) : (a :: l).dropWhile p = a :: l := by
  simp [List.dropWhile, h]

theorem takeWhile_append_firstFalse {α : Type} (p : α → Bool)
    (d rest : List α) (hd : ∀ a ∈ d, p a = true)
    (hr : ∀ b, rest.head? = some b → p b = false) :
    (d ++ rest).takeWhile p = d := by
  induction d with
  | nil =>
      cases rest with
      | nil => rfl
      | cons b l => simp [List.takeWhile, hr b rfl]
  | cons a l ih =>
      simp only [List.cons_append, List.takeWhile, hd a (by simp)]
      exact congrArg (a :: ·) (ih fun a ha => hd a (by simp [ha]))

theorem searchAxis_cons_ne (label a : Char) (l : List Char) (h : a ≠ label) :
    searchAxis label (a :: l) = searchAxis label l := by
  simp [searchAxis, h]

theorem searchAxis_append_ne (label : Char) (l1 l2 : List Char)
    (h : ∀ c ∈ l1, c ≠ label) :
    searchAxis label (l1 ++ l2) = searchAxis label l2 := by
  induction l1 with
  | nil => rfl
  | cons a l ih =>
      rw [List.cons_append, searchAxis_cons_ne label a _ (h a (by simp))]
      exact ih fun c hc => h c (by simp [hc])

theorem searchAxis_here (label : Char) (rest d : List Char)
    (hgrp : (rest.dropWhile isSpaceColon).takeWhile isNumChar = d)
    (hne : d ≠ []) : searchAxis label (label :: rest) = some d := by
  cases d with
  | nil => exact absurd rfl hne
  | cons d0 d' => simp [searchAxis, hgrp]

/-- The captured group at a label: skip `[:\s]` filler, take the maximal
numeric run. -/
theorem grp_eval (w d rest : List Char)
    (hw : ∀ c ∈ w, isSpaceColon c = true)
    (hd : ∀ c ∈ d, isNumChar c = true) (hdne : d ≠ [])
    (hr : ∀ b, rest.head? = some b → isNumChar b = false) :
    ((w ++ (d ++ rest)).dropWhile isSpaceColon).takeWhile isNumChar = d := by
  rw [dropWhile_append_all isSpaceColon w (d ++ rest) hw]
  cases d with
  | nil => exact absurd rfl hdne
  | cons d0 d' =>
      rw [List.cons_append,
        dropWhile_cons_false isSpaceColon d0 (d' ++ rest)
          (numChar_not_spaceColon d0 (hd d0 (by simp))),
        ← List.cons_append]
      exact takeWhile_append_firstFalse isNumChar (d0 :: d') rest hd hr

theorem pyFloat_ne_nil (d : List Char) (q : ℚ) (h : pyFloat d = some q) :
    d ≠ [] := by
  intro e; subst e; cases h

theorem pySpace_spaceColon (c : Char) (h : isPySpace c = true) :
    isSpaceColon c = true := by
  unfold isSpaceColon
  rw [h, Bool.or_true]

theorem String_data_mk (l : List Char) : (String.mk l).data = l := rfl

/-- The scanner for label `lab` walks past a foreign label, its `[:\s]`
filler, its numeric group and trailing whitespace. -/
theorem searchAxis_skip_block (lab a : Char) (w d sep rest : List Char)
    (ha : a ≠ lab)
    (hw : ∀ c ∈ w, isSpaceColon c = true)
    (hd : ∀ c ∈ d, isNumChar c = true)
    (hsep : ∀ c ∈ sep, isSpaceColon c = true)
    (hl1 : isSpaceColon lab = false) (hl2 : isNumChar lab = false) :
    searchAxis lab (a :: (w ++ (d ++ (sep ++ rest))))
      = searchAxis lab rest := by
  rw [searchAxis_cons_ne lab a _ ha,
    searchAxis_append_ne lab w _
      (fun c hc => spaceColon_ne_label c (hw c hc) lab hl1),
    searchAxis_append_ne lab d _
      (fun c hc => numChar_ne_label c (hd c hc) lab hl2),
    searchAxis_append_ne lab sep _
      (fun c hc => spaceColon_ne_label c (hsep c hc) lab hl1)]

/-- Counterexample for C8: the axis-label match of
`read_position_from_sensor` is case-SENSITIVE (`re.search` is used without
`re.IGNORECASE`): the lowercase rendering of a well-formed response parses
to nothing and falls back to the stale position instead of overwriting the
tracked position with `(1, 2, 3)`. -/
theorem sensor_parse_case_sensitive_counterexample :
    ("x:1 y:2 z:3" : String).data
        = ("X:1 Y:2 Z:3" : String).data.map Char.toLower ∧
    handleSensorResponse "X:1 Y:2 Z:3" = Except.ok (some ⟨1, 2, 3⟩) ∧
    handleSensorResponse "x:1 y:2 z:3" = Except.ok none ∧
    CtrlState.init.read_position_from_sensor
        (respTransport "x:1 y:2 z:3") ()
      = (Except.ok (⟨0, 300, 0⟩ : Position), CtrlState.init, ()) ∧
    (⟨0, 300, 0⟩ : Position) ≠ ⟨1, 2, 3⟩ := by
  refine ⟨by decide, by decide, by decide, by decide, by decide⟩

/-- Claim C8, amended: the sensor parser matches the uppercase axis labels
(case-SENSITIVELY), tolerating `[:\s]` filler after each label and
whitespace between the groups; on a successful parse it overwrites the
tracked position with the parsed one and returns it; when a label pattern
fails to match it never raises, returning the stale tracked position with
the state unchanged. -/
theorem sensor_parse_behavior {τ : Type} :
    (∀ (s : CtrlState) (st : τ)
      (w1 w2 w3 sep1 sep2 dx dy dz : List Char) (qx qy qz : ℚ),
      (∀ c ∈ w1, isSpaceColon c = true) →
      (∀ c ∈ w2, isSpaceColon c = true) →
      (∀ c ∈ w3, isSpaceColon c = true) →
      (∀ c ∈ sep1, isPySpace c = true) →
      (∀ c ∈ sep2, isPySpace c = true) →
      pyFloat dx = some qx → (∀ c ∈ dx, isNumChar c = true) →
      pyFloat dy = some qy → (∀ c ∈ dy, isNumChar c = true) →
      pyFloat dz = some qz → (∀ c ∈ dz, isNumChar c = true) →
      handleSensorResponse (String.mk
          ('X' :: (w1 ++ (dx ++ (sep1 ++
            ('Y' :: (w2 ++ (dy ++ (sep2 ++ ('Z' :: (w3 ++ dz)))))))))))
        = Except.ok (some ⟨qx, qy, qz⟩) ∧
      s.read_position_from_sensor
          (respTransport (String.mk
            ('X' :: (w1 ++ (dx ++ (sep1 ++
              ('Y' :: (w2 ++ (dy ++ (sep2 ++ ('Z' :: (w3 ++ dz))))))))))))
          st
        = (Except.ok ⟨qx, qy, qz⟩, { s with position := ⟨qx, qy, qz⟩ },
           st)) ∧
    (∀ (s : CtrlState) (st : τ) (resp : String),
      (searchAxis 'X' resp.data = none ∨ searchAxis 'Y' resp.data = none ∨
        searchAxis 'Z' resp.data = none) →
      handleSensorResponse resp = Except.ok none ∧
      s.read_position_from_sensor (respTransport resp) st
        = (Except.ok s.position, s, st)) := by
  constructor
  · intro s st w1 w2 w3 sep1 sep2 dx dy dz qx qy qz hw1 hw2 hw3 hs1 hs2
      hx hdx hy hdy hz hdz
    have hsep1 : ∀ c ∈ sep1, isSpaceColon c = true :=
      fun c hc => pySpace_spaceColon c (hs1 c hc)
    have hsep2 : ∀ c ∈ sep2, isSpaceColon c = true :=
      fun c hc => pySpace_spaceColon c (hs2 c hc)
    have hr1 : ∀ b,
        (sep1 ++ ('Y' :: (w2 ++ (dy ++ (sep2 ++
          ('Z' :: (w3 ++ dz))))))).head? = some b → isNumChar b = false := by
      cases sep1 with
      | nil =>
          intro b hb
          cases hb
          decide
      | cons c l =>
          intro b hb
          cases hb
          exact spaceColon_not_num c (hsep1 c (by simp))
    have hr2 : ∀ b,
        (sep2 ++ ('Z' :: (w3 ++ dz))).head? = some b →
          isNumChar b = false := by
      cases sep2 with
      | nil =>
          intro b hb
          cases hb
          decide
      | cons c l =>
          intro b hb
          cases hb
          exact spaceColon_not_num c (hsep2 c (by simp))
    have hr3 : ∀ b, ([] : List Char).head? = some b → isNumChar b = false :=
      by intro b hb; cases hb
    have hX := searchAxis_here 'X' _ dx
      (grp_eval w1 dx _ hw1 hdx (pyFloat_ne_nil dx qx hx) hr1)
      (pyFloat_ne_nil dx qx hx)
    have hY := (searchAxis_skip_block 'Y' 'X' w1 dx sep1 _ (by decide)
        hw1 hdx hsep1 (by decide) (by decide)).trans
      (searchAxis_here 'Y' _ dy
        (grp_eval w2 dy _ hw2 hdy (pyFloat_ne_nil dy qy hy) hr2)
        (pyFloat_ne_nil dy qy hy))
    have hgz : ((w3 ++ dz).dropWhile isSpaceColon).takeWhile isNumChar
        = dz := by
      have h0 := grp_eval w3 dz [] hw3 hdz (pyFloat_ne_nil dz qz hz) hr3
      rwa [List.append_nil] at h0
    have hZ := (searchAxis_skip_block 'Z' 'X' w1 dx sep1 _ (by decide)
        hw1 hdx hsep1 (by decide) (by decide)).trans
      ((searchAxis_skip_block 'Z' 'Y' w2 dy sep2 _ (by decide)
          hw2 hdy hsep2 (by decide) (by decide)).trans
        (searchAxis_here 'Z' _ dz hgz (pyFloat_ne_nil dz qz hz)))
    have key : ∀ R : String, handleSensorResponse R
          = Except.ok (some ⟨qx, qy, qz⟩) →
        s.read_position_from_sensor (respTransport R) st
          = (Except.ok (⟨qx, qy, qz⟩ : Position),
             { s with position := ⟨qx, qy, qz⟩ }, st) := by
      intro R hR
      simp only [CtrlState.read_position_from_sensor, respTransport, hR]
    refine ⟨?_, key _ ?_⟩ <;>
      · unfold handleSensorResponse
        rw [String_data_mk, hX, hY, hZ]
        simp only [hx, hy, hz]
  · intro s st resp h
    have hnone : handleSensorResponse resp = Except.ok none := by
      unfold handleSensorResponse
      rcases hX : searchAxis 'X' resp.data with _ | gx <;>
        rcases hY : searchAxis 'Y' resp.data with _ | gy <;>
          rcases hZ : searchAxis 'Z' resp.data with _ | gz <;>
            simp_all
    refine ⟨hnone, ?_⟩
    simp only [CtrlState.read_position_from_sensor, respTransport, hnone]

/-- Witness for C8 (amended): the response `"X:1 Y:2 Z:3"` parses and
overwrites the tracked position; a response without the labels falls back
to the stale position. -/
theorem sensor_parse_behavior_witness :
    pyFloat ['1'] = some 1 ∧
    handleSensorResponse (String.mk
        ('X' :: ([':'] ++ (['1'] ++ ([' '] ++
          ('Y' :: ([':'] ++ (['2'] ++ ([' '] ++
            ('Z' :: ([':'] ++ ['3'])))))))))))
      = Except.ok (some ⟨1, 2, 3⟩) ∧
    searchAxis 'X' ("no axes here" : String).data = none ∧
    handleSensorResponse "no axes here" = Except.ok none := by
  refine ⟨by decide, ?_, by decide, ?_⟩
  · exact ((@sensor_parse_behavior Unit).1 CtrlState.init ()
      [':'] [':'] [':'] [' '] [' '] ['1'] ['2'] ['3'] 1 2 3
      (by decide) (by decide) (by decide) (by decide) (by decide)
      (by decide) (by decide) (by decide) (by decide) (by decide)
      (by decide)).1
  · exact ((@sensor_parse_behavior Unit).2 CtrlState.init ()
      "no axes here" (Or.inl (by decide))).1

/-!
## Stepping lemmas for the workflow run
-/

/-- A safe-move plan succeeds whenever the target validates. -/
theorem plan_safe_move_ok (pl : MotionPlanner) (current target : Position)
    (h : (pl.workspace.validate target).1 = true) :
    ∃ cmds, pl.plan_safe_move current target = Except.ok cmds := by
  unfold MotionPlanner.plan_safe_move MotionPlanner.validatePosition
  simp only [h, if_true, bind, Except.bind, pure, Except.pure]
  exact ⟨_, rfl⟩

/-- Unfolding equation for one iteration of the `run` loop. -/
theorem runAux_succ {τ : Type} (t : Option (Transport τ)) (n : Nat)
    (w : Workflow) (st : τ) (acc : List WState) :
    Workflow.runAux t (n + 1) w st acc =
      if w.state = WState.complete ∨ w.state = WState.error then (w, st, acc)
      else Workflow.runAux t n (w.step t st).1 (w.step t st).2
        (acc ++ [(w.step t st).1.state]) := rfl

theorem step_moving_pick {τ : Type} (w : Workflow) (tr : Transport τ)
    (st : τ) (q0 : QueueState) (pick : Position)
    (hs : w.state = WState.movingToPick) (hq : w.queue = some q0)
    (hp : w.pick_position = some pick)
    (hv : (w.planner.workspace.validate
      (pick.with_z w.planner.safe_z)).1 = true) :
    ∃ q' st', w.step (some tr) st =
      ({ w with state := WState.loweringToPick, queue := some q',
                current_position := pick.with_z w.planner.safe_z }, st') := by
  obtain ⟨cmds, hc⟩ := plan_safe_move_ok w.planner w.current_position
    (pick.with_z w.planner.safe_z) hv
  refine ⟨(executeAll (q0.enqueue_many cmds) tr st).2.1,
    (executeAll (q0.enqueue_many cmds) tr st).2.2, ?_⟩
  unfold Workflow.step Workflow.execCurrentState
  simp [hs, hq, hp, hc, Workflow.advance]

theorem step_lowering_pick {τ : Type} (w : Workflow) (tr : Transport τ)
    (st : τ) (q0 : QueueState) (pick : Position)
    (hs : w.state = WState.loweringToPick) (hq : w.queue = some q0)
    (hp : w.pick_position = some pick) :
    ∃ q' st', w.step (some tr) st =
      ({ w with state := WState.activatingSuction, queue := some q',
                current_position := pick }, st') := by
  refine ⟨(executeAll (q0.enqueue_many
      [Cmd.move none none (some pick.z) w.planner.feedrate, Cmd.wait])
      tr st).2.1,
    (executeAll (q0.enqueue_many
      [Cmd.move none none (some pick.z) w.planner.feedrate, Cmd.wait])
      tr st).2.2, ?_⟩
  unfold Workflow.step Workflow.execCurrentState
  simp [hs, hq, hp, Workflow.advance]

theorem step_suction {τ : Type} (w : Workflow) (tr : Transport τ)
    (st : τ) (q0 : QueueState)
    (hs : w.state = WState.activatingSuction) (hq : w.queue = some q0) :
    ∃ q' st', w.step (some tr) st =
      ({ w with state := WState.liftingFromPick, queue := some q' }, st') := by
  refine ⟨(executeAll (q0.enqueue_many
      [Cmd.suction SuctionAction.on, Cmd.delay 200]) tr st).2.1,
    (executeAll (q0.enqueue_many
      [Cmd.suction SuctionAction.on, Cmd.delay 200]) tr st).2.2, ?_⟩
  unfold Workflow.step Workflow.execCurrentState
  simp [hs, hq, Workflow.advance]

theorem step_lift_pick {τ : Type} (w : Workflow) (tr : Transport τ)
    (st : τ) (q0 : QueueState)
    (hs : w.state = WState.liftingFromPick) (hq : w.queue = some q0) :
    ∃ q' st', w.step (some tr) st =
      ({ w with state := WState.movingToPlace, queue := some q',
                current_position :=
                  w.current_position.with_z w.planner.safe_z }, st') := by
  refine ⟨(executeAll (q0.enqueue_many
      [Cmd.move none none (some w.planner.safe_z) w.planner.feedrate,
       Cmd.wait]) tr st).2.1,
    (executeAll (q0.enqueue_many
      [Cmd.move none none (some w.planner.safe_z) w.planner.feedrate,
       Cmd.wait]) tr st).2.2, ?_⟩
  unfold Workflow.step Workflow.execCurrentState
  simp [hs, hq, Workflow.advance]

theorem step_moving_place {τ : Type} (w : Workflow) (tr : Transport τ)
    (st : τ) (q0 : QueueState) (place : Position)
    (hs : w.state = WState.movingToPlace) (hq : w.queue = some q0)
    (hp : w.place_position = some place)
    (hv : (w.planner.workspace.validate
      (place.with_z w.planner.safe_z)).1 = true) :
    ∃ q' st', w.step (some tr) st =
      ({ w with state := WState.loweringToPlace, queue := some q',
                current_position := place.with_z w.planner.safe_z }, st') := by
  obtain ⟨cmds, hc⟩ := plan_safe_move_ok w.planner w.current_position
    (place.with_z w.planner.safe_z) hv
  refine ⟨(executeAll (q0.enqueue_many cmds) tr st).2.1,
    (executeAll (q0.enqueue_many cmds) tr st).2.2, ?_⟩
  unfold Workflow.step Workflow.execCurrentState
  simp [hs, hq, hp, hc, Workflow.advance]

theorem step_lowering_place {τ : Type} (w : Workflow) (tr : Transport τ)
    (st : τ) (q0 : QueueState) (place : Position)
    (hs : w.state = WState.loweringToPlace) (hq : w.queue = some q0)
    (hp : w.place_position = some place) :
    ∃ q' st', w.step (some tr) st =
      ({ w with state := WState.releasing, queue := some q',
                current_position := place }, st') := by
  refine ⟨(executeAll (q0.enqueue_many
      [Cmd.move none none (some place.z) w.planner.feedrate, Cmd.wait])
      tr st).2.1,
    (executeAll (q0.enqueue_many
      [Cmd.move none none (some place.z) w.planner.feedrate, Cmd.wait])
      tr st).2.2, ?_⟩
  unfold Workflow.step Workflow.execCurrentState
  simp [hs, hq, hp, Workflow.advance]

theorem step_releasing {τ : Type} (w : Workflow) (tr : Transport τ)
    (st : τ) (q0 : QueueState)
    (hs : w.state = WState.releasing) (hq : w.queue = some q0) :
    ∃ q' st', w.step (some tr) st =
      ({ w with state := WState.liftingFromPlace, queue := some q' },
       st') := by
  refine ⟨(executeAll (q0.enqueue_many
      [Cmd.suction SuctionAction.release, Cmd.delay 100,
       Cmd.suction SuctionAction.off]) tr st).2.1,
    (executeAll (q0.enqueue_many
      [Cmd.suction SuctionAction.release, Cmd.delay 100,
       Cmd.suction SuctionAction.off]) tr st).2.2, ?_⟩
  unfold Workflow.step Workflow.execCurrentState
  simp [hs, hq, Workflow.advance]

theorem step_lift_place {τ : Type} (w : Workflow) (tr : Transport τ)
    (st : τ) (q0 : QueueState)
    (hs : w.state = WState.liftingFromPlace) (hq : w.queue = some q0) :
    ∃ q' st', w.step (some tr) st =
      ({ w with state := WState.complete, queue := some q',
                current_position :=
                  w.current_position.with_z w.planner.safe_z }, st') := by
  refine ⟨(executeAll (q0.enqueue_many
      [Cmd.move none none (some w.planner.safe_z) w.planner.feedrate,
       Cmd.wait]) tr st).2.1,
    (executeAll (q0.enqueue_many
      [Cmd.move none none (some w.planner.safe_z) w.planner.feedrate,
       Cmd.wait]) tr st).2.2, ?_⟩
  unfold Workflow.step Workflow.execCurrentState
  simp [hs, hq, Workflow.advance]

/-- The remaining states a running workflow passes through from a given
state to Complete, following `_advance_state`'s transition table. -/
def chainFrom : WState → List WState
  | WState.movingToPick =>
      [WState.loweringToPick, WState.activatingSuction,
       WState.liftingFromPick, WState.movingToPlace, WState.loweringToPlace,
       WState.releasing, WState.liftingFromPlace, WState.complete]
  | WState.loweringToPick =>
      [WState.activatingSuction, WState.liftingFromPick,
       WState.movingToPlace, WState.loweringToPlace, WState.releasing,
       WState.liftingFromPlace, WState.complete]
  | WState.activatingSuction =>
      [WState.liftingFromPick, WState.movingToPlace, WState.loweringToPlace,
       WState.releasing, WState.liftingFromPlace, WState.complete]
  | WState.liftingFromPick =>
      [WState.movingToPlace, WState.loweringToPlace, WState.releasing,
       WState.liftingFromPlace, WState.complete]
  | WState.movingToPlace =>
      [WState.loweringToPlace, WState.releasing, WState.liftingFromPlace,
       WState.complete]
  | WState.loweringToPlace =>
      [WState.releasing, WState.liftingFromPlace, WState.complete]
  | WState.releasing => [WState.liftingFromPlace, WState.complete]
  | WState.liftingFromPlace => [WState.complete]
  | _ => []

/-- With a transport and queue attached, validated pick/place positions and
enough fuel, the run loop walks the remaining chain and ends in Complete,
appending exactly the chain to the visited-state trace. -/
theorem runAux_completes {τ : Type} (tr : Transport τ)
    (pick place : Position) :
    ∀ (n : Nat) (w : Workflow) (st : τ) (acc : List WState)
      (q0 : QueueState),
      (chainFrom w.state).length ≤ n →
      w.queue = some q0 →
      w.pick_position = some pick → w.place_position = some place →
      (w.planner.workspace.validate (pick.with_z w.planner.safe_z)).1
        = true →
      (w.planner.workspace.validate (place.with_z w.planner.safe_z)).1
        = true →
      w.state ≠ WState.idle → w.state ≠ WState.error →
      ∃ wf stf, Workflow.runAux (some tr) n w st acc
        = (wf, stf, acc ++ chainFrom w.state) ∧
        wf.state = WState.complete ∧
        wf.hasOnComplete = w.hasOnComplete := by
  intro n
  induction n with
  | zero =>
      intro w st acc q0 hn hq hpick hplace hv1 hv2 hi he
      cases hσ : w.state <;> rw [hσ] at hn <;> simp [chainFrom] at hn
      case idle => exact absurd hσ hi
      case error => exact absurd hσ he
      case complete =>
          exact ⟨w, st, by simp [Workflow.runAux, hσ, chainFrom], hσ, rfl⟩
  | succ n ih =>
      intro w st acc q0 hn hq hpick hplace hv1 hv2 hi he
      cases hσ : w.state with
      | idle => exact absurd hσ hi
      | error => exact absurd hσ he
      | complete =>
          refine ⟨w, st, ?_, hσ, rfl⟩
          rw [runAux_succ, if_pos (Or.inl hσ)]
          simp [chainFrom]
      | movingToPick =>
          obtain ⟨q', st', hstep⟩ :=
            step_moving_pick w tr st q0 pick hσ hq hpick hv1
          obtain ⟨wf, stf, hrec, hwf, hocf⟩ := ih
            { w with state := WState.loweringToPick, queue := some q',
                     current_position := pick.with_z w.planner.safe_z }
            st' (acc ++ [WState.loweringToPick]) q'
            (by rw [hσ] at hn; simp [chainFrom] at hn ⊢; omega)
            rfl hpick hplace hv1 hv2 (by simp) (by simp)
          refine ⟨wf, stf, ?_, hwf, hocf⟩
          rw [runAux_succ, if_neg (by simp [hσ])]
          simp only [hstep]
          rw [hrec]
          simp [chainFrom, List.append_assoc]
      | loweringToPick =>
          obtain ⟨q', st', hstep⟩ :=
            step_lowering_pick w tr st q0 pick hσ hq hpick
          obtain ⟨wf, stf, hrec, hwf, hocf⟩ := ih
            { w with state := WState.activatingSuction, queue := some q',
                     current_position := pick }
            st' (acc ++ [WState.activatingSuction]) q'
            (by rw [hσ] at hn; simp [chainFrom] at hn ⊢; omega)
            rfl hpick hplace hv1 hv2 (by simp) (by simp)
          refine ⟨wf, stf, ?_, hwf, hocf⟩
          rw [runAux_succ, if_neg (by simp [hσ])]
          simp only [hstep]
          rw [hrec]
          simp [chainFrom, List.append_assoc]
      | activatingSuction =>
          obtain ⟨q', st', hstep⟩ := step_suction w tr st q0 hσ hq
          obtain ⟨wf, stf, hrec, hwf, hocf⟩ := ih
            { w with state := WState.liftingFromPick, queue := some q' }
            st' (acc ++ [WState.liftingFromPick]) q'
            (by rw [hσ] at hn; simp [chainFrom] at hn ⊢; omega)
            rfl hpick hplace hv1 hv2 (by simp) (by simp)
          refine ⟨wf, stf, ?_, hwf, hocf⟩
          rw [runAux_succ, if_neg (by simp [hσ])]
          simp only [hstep]
          rw [hrec]
          simp [chainFrom, List.append_assoc]
      | liftingFromPick =>
          obtain ⟨q', st', hstep⟩ := step_lift_pick w tr st q0 hσ hq
          obtain ⟨wf, stf, hrec, hwf, hocf⟩ := ih
            { w with state := WState.movingToPlace, queue := some q',
                     current_position :=
                       w.current_position.with_z w.planner.safe_z }
            st' (acc ++ [WState.movingToPlace]) q'
            (by rw [hσ] at hn; simp [chainFrom] at hn ⊢; omega)
            rfl hpick hplace hv1 hv2 (by simp) (by simp)
          refine ⟨wf, stf, ?_, hwf, hocf⟩
          rw [runAux_succ, if_neg (by simp [hσ])]
          simp only [hstep]
          rw [hrec]
          simp [chainFrom, List.append_assoc]
      | movingToPlace =>
          obtain ⟨q', st', hstep⟩ :=
            step_moving_place w tr st q0 place hσ hq hplace hv2
          obtain ⟨wf, stf, hrec, hwf, hocf⟩ := ih
            { w with state := WState.loweringToPlace, queue := some q',
                     current_position := place.with_z w.planner.safe_z }
            st' (acc ++ [WState.loweringToPlace]) q'
            (by rw [hσ] at hn; simp [chainFrom] at hn ⊢; omega)
            rfl hpick hplace hv1 hv2 (by simp) (by simp)
          refine ⟨wf, stf, ?_, hwf, hocf⟩
          rw [runAux_succ, if_neg (by simp [hσ])]
          simp only [hstep]
          rw [hrec]
          simp [chainFrom, List.append_assoc]
      | loweringToPlace =>
          obtain ⟨q', st', hstep⟩ :=
            step_lowering_place w tr st q0 place hσ hq hplace
          obtain ⟨wf, stf, hrec, hwf, hocf⟩ := ih
            { w with state := WState.releasing, queue := some q',
                     current_position := place }
            st' (acc ++ [WState.releasing]) q'
            (by rw [hσ] at hn; simp [chainFrom] at hn ⊢; omega)
            rfl hpick hplace hv1 hv2 (by simp) (by simp)
          refine ⟨wf, stf, ?_, hwf, hocf⟩
          rw [runAux_succ, if_neg (by simp [hσ])]
          simp only [hstep]
          rw [hrec]
          simp [chainFrom, List.append_assoc]
      | releasing =>
          obtain ⟨q', st', hstep⟩ := step_releasing w tr st q0 hσ hq
          obtain ⟨wf, stf, hrec, hwf, hocf⟩ := ih
            { w with state := WState.liftingFromPlace, queue := some q' }
            st' (acc ++ [WState.liftingFromPlace]) q'
            (by rw [hσ] at hn; simp [chainFrom] at hn ⊢; omega)
            rfl hpick hplace hv1 hv2 (by simp) (by simp)
          refine ⟨wf, stf, ?_, hwf, hocf⟩
          rw [runAux_succ, if_neg (by simp [hσ])]
          simp only [hstep]
          rw [hrec]
          simp [chainFrom, List.append_assoc]
      | liftingFromPlace =>
          obtain ⟨q', st', hstep⟩ := step_lift_place w tr st q0 hσ hq
          obtain ⟨wf, stf, hrec, hwf, hocf⟩ := ih
            { w with state := WState.complete, queue := some q',
                     current_position :=
                       w.current_position.with_z w.planner.safe_z }
            st' (acc ++ [WState.complete]) q'
            (by simp [chainFrom]) rfl hpick hplace hv1 hv2
            (by simp) (by simp)
          refine ⟨wf, stf, ?_, hwf, hocf⟩
          rw [runAux_succ, if_neg (by simp [hσ])]
          simp only [hstep]
          rw [hrec]
          simp [chainFrom, List.append_assoc]

/-- Counterexample for C6: a freshly configured Idle workflow whose pick
position lies outside the workspace does not terminate in Complete —
`plan_safe_move` raises during the first step and `run` ends in Error. -/
theorem run_invalid_pick_counterexample :
    (((Workflow.configured ⟨1000, 1000, 0⟩ ⟨-100, 200, 10⟩).run
        (some okTransport) ()).map fun r => r.1.state)
      = Except.ok WState.error ∧
    WState.error ≠ WState.complete := ⟨by decide, by decide⟩

/-- Claim C6, amended: for a freshly configured workflow in Idle with one
pick and one place position **whose above-pick and above-place points at
safe-Z pass workspace validation**, `run()` terminates in Complete,
entering the states MovingToPick, LoweringToPick, ActivatingSuction,
LiftingFromPick, MovingToPlace, LoweringToPlace, Releasing,
LiftingFromPlace, Complete exactly once each in that order, and the
completion callback fires exactly when one is attached; in general the
callback fires only when the final state is Complete. -/
theorem run_one_cycle {τ : Type} (pick place : Position) (q : QueueState)
    (t : Transport τ) (st : τ) (hoc : Bool)
    (hp : (DEFAULT_WORKSPACE.validate (pick.with_z 50)).1 = true)
    (hpl : (DEFAULT_WORKSPACE.validate (place.with_z 50)).1 = true) :
    (∀ (τ2 : Type) (w : Workflow) (t2 : Option (Transport τ2)) (st2 : τ2)
      r, w.run t2 st2 = Except.ok r → r.2.2.2 = true →
        r.1.state = WState.complete) ∧
    (((Workflow.configured pick place (some q) hoc).run (some t) st).map
        fun r => r.1.state) = Except.ok WState.complete ∧
    (((Workflow.configured pick place (some q) hoc).run (some t) st).map
        fun r => r.2.2.1) = Except.ok
          [WState.movingToPick, WState.loweringToPick,
           WState.activatingSuction, WState.liftingFromPick,
           WState.movingToPlace, WState.loweringToPlace, WState.releasing,
           WState.liftingFromPlace, WState.complete] ∧
    (((Workflow.configured pick place (some q) hoc).run (some t) st).map
        fun r => r.2.2.2) = Except.ok hoc := by
  have hgen : ∀ (τ2 : Type) (w : Workflow) (t2 : Option (Transport τ2))
      (st2 : τ2) r, w.run t2 st2 = Except.ok r → r.2.2.2 = true →
        r.1.state = WState.complete := by
    intro τ2 w t2 st2 r hrun hf
    unfold Workflow.run at hrun
    rcases hstart : w.start with ⟨rs, w1⟩
    rw [hstart] at hrun
    cases rs with
    | error e => exact absurd hrun (by simp)
    | ok u =>
        cases u
        simp only [Except.ok.injEq] at hrun
        subst hrun
        simp only [Bool.and_eq_true, decide_eq_true_eq] at hf
        exact hf.1
  have hstart : (Workflow.configured pick place (some q) hoc).start
      = (Except.ok (),
         { Workflow.configured pick place (some q) hoc with
             state := WState.movingToPick }) := rfl
  obtain ⟨wf, stf, hrun9, hwfs, hwoc⟩ := runAux_completes t pick place 16
    { Workflow.configured pick place (some q) hoc with
        state := WState.movingToPick }
    st [WState.movingToPick] q
    (by decide : (chainFrom WState.movingToPick).length ≤ 16)
    rfl rfl rfl hp hpl
    (by decide : WState.movingToPick ≠ WState.idle)
    (by decide : WState.movingToPick ≠ WState.error)
  refine ⟨hgen, ?_, ?_, ?_⟩ <;>
    simp [Workflow.run, hstart, hrun9, hwfs, hwoc, chainFrom,
      Except.map] <;>
    simp [Workflow.configured]

/-- Witness for C6 (amended) at in-workspace pick `(100,200,10)` and place
`(-100,200,10)`. -/
theorem run_one_cycle_witness :
    (DEFAULT_WORKSPACE.validate
      (Position.with_z ⟨100, 200, 10⟩ 50)).1 = true ∧
    (DEFAULT_WORKSPACE.validate
      (Position.with_z ⟨-100, 200, 10⟩ 50)).1 = true ∧
    (((Workflow.configured ⟨100, 200, 10⟩ ⟨-100, 200, 10⟩
        (some QueueState.empty) true).run (some okTransport) ()).map
      fun r => r.1.state) = Except.ok WState.complete :=
  ⟨by decide, by decide,
   (run_one_cycle ⟨100, 200, 10⟩ ⟨-100, 200, 10⟩ QueueState.empty
     okTransport () true (by decide) (by decide)).2.1⟩

end BladeLoader
